import Mathlib

/-!
Verification of the person-service repository (Go, Gin + GORM + PostgreSQL).

Shallow embedding of:
- `models/person.go`: `Person`, `SavePersonRequest`, `PersonResponse`,
  `ErrorResponse`, `BeforeCreate`, `ToResponse`, `FromSaveRequest`;
- `handlers/person.go`: `SavePerson`, `GetPerson`;
- the `/health` route closure of `main.go` and the test router setup;
- the request-binding layer (`c.ShouldBindJSON` with the `binding` tags of
  `SavePersonRequest`), modelling the library code it delegates to
  (`encoding/json`, `google/uuid`, `time.Time` RFC3339 parsing, the
  go-playground validator's `required` and `email` checks);
- the database as a list of rows with a serial primary key and the unique
  constraint on `external_id` declared by the GORM column tags, together
  with an explicit fault flag per database call standing for an I/O failure.

UUIDs are 128-bit values modelled as `Nat` (big-endian byte value);
`uuid.Nil` is `0`.  `time.Time` values are modelled by their broken-down
RFC3339 components (`GoTime`); the Go zero time (January 1, year 1,
00:00:00 UTC, nil location) is `zeroGoTime`.
-/

namespace PersonService

/-- Go `strconv`: decimal digit value of a character, `none` otherwise. -/
def digitVal (c : Char) : Option Nat :=
  if c.isDigit then some (c.toNat - 48) else none

def parseUintAux : List Char → Nat → Option Nat
  | [], acc => some acc
  | c :: cs, acc =>
    match digitVal c with
    | some d => parseUintAux cs (acc * 10 + d)
    | none => none

/-- Models `strconv.ParseUint(s, 10, 32)` from `GetPerson`: succeeds exactly on a
nonempty all-decimal-digit string whose value fits in 32 bits (no sign, no
prefixes, no underscores at base 10). -/
def parseUint32 (s : String) : Option Nat :=
  if s.data.isEmpty then none
  else
    match parseUintAux s.data 0 with
    | some v => if v < 2 ^ 32 then some v else none
    | none => none

/-- Hex digit value as in `google/uuid`'s `xtob` table (`0-9`, `a-f`, `A-F`). -/
def hexVal (c : Char) : Option Nat :=
  let n := c.toNat
  if 48 ≤ n && n ≤ 57 then some (n - 48)
  else if 97 ≤ n && n ≤ 102 then some (n - 97 + 10)
  else if 65 ≤ n && n ≤ 70 then some (n - 65 + 10)
  else none

/-- One byte from two hex characters (`xtob`). -/
def hexPair (a b : Char) : Option Nat :=
  match hexVal a, hexVal b with
  | some x, some y => some (x * 16 + y)
  | _, _ => none

/-- Big-endian accumulation of hex-character pairs into a `Nat`. -/
def hexListVal : List Char → Nat → Option Nat
  | [], acc => some acc
  | a :: b :: rest, acc =>
    match hexPair a b with
    | some v => hexListVal rest (acc * 256 + v)
    | none => none
  | [_], _ => none

/-- The canonical `8-4-4-4-12` UUID form on exactly 36 characters: dashes
at offsets 8, 13, 18, 23 and hex-digit pairs at the remaining offsets,
exactly the positions Go checks. -/
def parseCanonicalUuid (cs : List Char) : Option Nat :=
  if cs.length == 36 &&
     cs.get? 8 == some '-' && cs.get? 13 == some '-' &&
     cs.get? 18 == some '-' && cs.get? 23 == some '-' then
    hexListVal (cs.take 8 ++ ((cs.drop 9).take 4) ++ ((cs.drop 14).take 4) ++
                ((cs.drop 19).take 4) ++ cs.drop 24) 0
  else none

/-- Models `google/uuid.Parse` (library code called through the
`uuid.UUID` JSON unmarshaller): canonical 36-character form, the
`urn:uuid:` 45-character form (case-insensitive on the scheme), the
brace-wrapped 38-character form (Go drops the first byte and never checks
the closing brace), and the plain 32-hex-digit form. -/
def uuidParse (s : String) : Option Nat :=
  let cs := s.data
  match cs.length with
  | 36 => parseCanonicalUuid cs
  | 45 =>
    if (cs.take 9).map Char.toLower == "urn:uuid:".data then
      parseCanonicalUuid (cs.drop 9)
    else none
  | 38 => parseCanonicalUuid ((cs.drop 1).take 36)
  | 32 =>
    match hexListVal cs 0 with
    | some v => some v
    | none => none
  | _ => none

/-- The value `uuid.Nil`, the all-zero UUID. -/
def uuidNil : Nat := 0

/-- Broken-down value of a Go `time.Time` as produced by RFC3339 parsing:
calendar components plus the zone (`none` for the normalized UTC location,
`some m` for a fixed offset of `m` minutes).  The Go zero time has a nil
location, which parsing `Z` also normalizes to, hence `none`. -/
structure GoTime where
  year : Nat
  month : Nat
  day : Nat
  hour : Nat
  minute : Nat
  second : Nat
  nsec : Nat
  tzOffsetMin : Option Int
deriving DecidableEq, Repr

/-- The zero `time.Time`: January 1, year 1, 00:00:00, nil location. -/
def zeroGoTime : GoTime := ⟨1, 1, 1, 0, 0, 0, 0, none⟩

/-- Leap-year rule used by Go's date validation. -/
def isLeapYear (y : Nat) : Bool :=
  y % 4 == 0 && (y % 100 != 0 || y % 400 == 0)

def daysInMonth (y m : Nat) : Nat :=
  if m == 2 then (if isLeapYear y then 29 else 28)
  else if m == 4 || m == 6 || m == 9 || m == 11 then 30
  else 31

def allDigits (cs : List Char) : Bool := cs.all Char.isDigit

def digitsVal (cs : List Char) : Nat :=
  cs.foldl (fun acc c => acc * 10 + (c.toNat - 48)) 0

/-- Nanoseconds from the fractional-second digits (first nine digits,
scaled). -/
def fracNanos (cs : List Char) : Nat :=
  let d := cs.take 9
  digitsVal d * 10 ^ (9 - d.length)

/-- Zone suffix of an RFC3339 string: uppercase `Z` for UTC (normalized to
a nil location by Go, hence `none`) or a signed `hh:mm` fixed offset; Go's
RFC3339 parsing is case-sensitive and rejects a lowercase `z`. -/
def parseZone (cs : List Char) : Option (Option Int) :=
  match cs with
  | ['Z'] => some none
  | [sgn, h1, h2, ':', m1, m2] =>
    if (sgn == '+' || sgn == '-') && allDigits [h1, h2, m1, m2] then
      let hh := digitsVal [h1, h2]
      let mm := digitsVal [m1, m2]
      if hh ≤ 23 && mm ≤ 59 then
        let total : Int := Int.ofNat (hh * 60 + mm)
        some (some (if sgn == '-' then -total else total))
      else none
    else none
  | _ => none

/-- Fractional seconds then zone: an optional `.` followed by at least one
digit, then the zone suffix. -/
def parseFracZone (cs : List Char) : Option (Nat × Option Int) :=
  match cs with
  | '.' :: rest =>
    let digs := rest.takeWhile Char.isDigit
    let after := rest.dropWhile Char.isDigit
    if digs.isEmpty then none
    else
      match parseZone after with
      | some z => some (fracNanos digs, z)
      | none => none
  | _ =>
    match parseZone cs with
    | some z => some (0, z)
    | none => none

/-- Models RFC3339 parsing of `time.Time` (library code reached through the
`time.Time` JSON unmarshaller): `YYYY-MM-DDTHH:MM:SS`, optional fractional
seconds, then `Z` or a signed `hh:mm` offset, with Go's range checks on
every calendar component. -/
def timeParse (s : String) : Option GoTime :=
  match s.data with
  | y1 :: y2 :: y3 :: y4 :: '-' :: mo1 :: mo2 :: '-' :: d1 :: d2 :: 'T' ::
    h1 :: h2 :: ':' :: mi1 :: mi2 :: ':' :: s1 :: s2 :: rest =>
    if allDigits [y1, y2, y3, y4, mo1, mo2, d1, d2, h1, h2, mi1, mi2, s1, s2] then
      let y := digitsVal [y1, y2, y3, y4]
      let mo := digitsVal [mo1, mo2]
      let d := digitsVal [d1, d2]
      let h := digitsVal [h1, h2]
      let mi := digitsVal [mi1, mi2]
      let se := digitsVal [s1, s2]
      if 1 ≤ mo && mo ≤ 12 && 1 ≤ d && d ≤ daysInMonth y mo &&
         h ≤ 23 && mi ≤ 59 && se ≤ 59 then
        match parseFracZone rest with
        | some (ns, z) => some ⟨y, mo, d, h, mi, se, ns, z⟩
        | none => none
      else none
    else none
  | _ => none

/-! The go-playground validator's `email` check (library code behind the
`binding:"email"` tag) is an anchored regular-expression match.  It is
embedded here as a regular-expression value matched with Brzozowski
derivatives, transcribing the library's pattern clause by clause: the
local part is a dot-atom of atext runs or an RFC5321-style
quoted string (with folding whitespace and quoted pairs), then one `@`,
then one or more dot-terminated labels followed by a top-level label that
starts with a letter and ends with a letter or digit (single-letter
allowed), with an optional trailing dot. -/

/-- Regular expressions over characters: empty language, empty string,
character class, concatenation, alternation, Kleene star. -/
inductive RE where
  | emp
  | eps
  | cls (p : Char → Bool)
  | seq (r1 r2 : RE)
  | alt (r1 r2 : RE)
  | star (r : RE)

/-- Whether a regular expression accepts the empty string. -/
def nullable : RE → Bool
  | RE.emp => false
  | RE.eps => true
  | RE.cls _ => false
  | RE.seq r1 r2 => nullable r1 && nullable r2
  | RE.alt r1 r2 => nullable r1 || nullable r2
  | RE.star _ => true

/-- Concatenation with unit and absorption simplification. -/
def mkSeq (r1 r2 : RE) : RE :=
  match r1, r2 with
  | RE.emp, _ => RE.emp
  | _, RE.emp => RE.emp
  | RE.eps, r => r
  | r, RE.eps => r
  | a, b => RE.seq a b

/-- Alternation with empty-language simplification. -/
def mkAlt (r1 r2 : RE) : RE :=
  match r1, r2 with
  | RE.emp, r => r
  | r, RE.emp => r
  | a, b => RE.alt a b

/-- Brzozowski derivative of a regular expression by one character. -/
def reDeriv : RE → Char → RE
  | RE.emp, _ => RE.emp
  | RE.eps, _ => RE.emp
  | RE.cls p, c => if p c then RE.eps else RE.emp
  | RE.seq r1 r2, c =>
    if nullable r1 then mkAlt (mkSeq (reDeriv r1 c) r2) (reDeriv r2 c)
    else mkSeq (reDeriv r1 c) r2
  | RE.alt r1 r2, c => mkAlt (reDeriv r1 c) (reDeriv r2 c)
  | RE.star r, c => mkSeq (reDeriv r c) (RE.star r)

/-- Anchored (whole-string) regular-expression matching by derivatives. -/
def reMatch (r : RE) : List Char → Bool
  | [] => nullable r
  | c :: cs => reMatch (reDeriv r c) cs

/-- One or more repetitions. -/
def rePlus (r : RE) : RE := RE.seq r (RE.star r)

/-- Zero or one occurrence. -/
def reOpt (r : RE) : RE := RE.alt RE.eps r

/-- The Unicode ranges the library's pattern admits alongside ASCII:
`U+00A0`-`U+D7FF`, `U+F900`-`U+FDCF`, `U+FDF0`-`U+FFEF`. -/
def uniAllowed (c : Char) : Bool :=
  let n := c.toNat
  (160 ≤ n && n ≤ 55295) || (63744 ≤ n && n ≤ 64975) || (64976 ≤ n && n ≤ 65519)

/-- The special (non-alphanumeric) atext characters of the pattern, given
by character code: `! # $ % & ' * + - / = ? ^ _` backtick `{ | } ~`. -/
def specialAtext (c : Char) : Bool :=
  let n := c.toNat
  n == 33 || (35 ≤ n && n ≤ 39) || n == 42 || n == 43 || n == 45 || n == 47 ||
  n == 61 || n == 63 || n == 94 || n == 95 || n == 96 || (123 ≤ n && n ≤ 126)

/-- An atext character class: ASCII letter or digit, special, or allowed
Unicode. -/
def atextCls : RE := RE.cls (fun c => c.isAlphanum || specialAtext c || uniAllowed c)

/-- Dot-atom local part: one or more atext runs separated by dots. -/
def dotAtomRe : RE :=
  RE.seq (rePlus atextCls) (RE.star (RE.seq (RE.cls (fun c => c == '.')) (rePlus atextCls)))

/-- Space or horizontal tab. -/
def wspCls : RE := RE.cls (fun c => c == ' ' || c == '\t')

/-- Carriage return followed by line feed. -/
def crlfRe : RE := RE.seq (RE.cls (fun c => c == '\r')) (RE.cls (fun c => c == '\n'))

/-- Folding whitespace: optionally, an optional run of whitespace ending
in CRLF, then at least one space or tab. -/
def fwsRe : RE := reOpt (RE.seq (reOpt (RE.seq (RE.star wspCls) crlfRe)) (rePlus wspCls))

/-- Quoted-string text: the pattern's control characters, the exclamation
mark, the two printable ranges around the quote and the backslash, DEL, or
allowed Unicode. -/
def qtextCls : RE := RE.cls (fun c =>
  let n := c.toNat
  (1 ≤ n && n ≤ 8) || n == 11 || n == 12 || (14 ≤ n && n ≤ 31) || n == 127 ||
  n == 33 || (35 ≤ n && n ≤ 91) || (93 ≤ n && n ≤ 126) || uniAllowed c)

/-- Quoted pair: a backslash followed by one admitted character. -/
def qpairRe : RE :=
  RE.seq (RE.cls (fun c => c == '\\'))
    (RE.cls (fun c =>
      let n := c.toNat
      (1 ≤ n && n ≤ 9) || n == 11 || n == 12 || (13 ≤ n && n ≤ 127) || uniAllowed c))

/-- A double quote. -/
def dquoteCls : RE := RE.cls (fun c => c == '"')

/-- Quoted-string local part: a double quote, any number of
folding-whitespace-preceded quoted characters or quoted pairs, optional
trailing folding whitespace, a closing double quote. -/
def quotedRe : RE :=
  RE.seq dquoteCls
    (RE.seq (RE.star (RE.seq fwsRe (RE.alt qtextCls qpairRe)))
      (RE.seq fwsRe dquoteCls))

/-- The local part: dot-atom or quoted string. -/
def localRe : RE := RE.alt dotAtomRe quotedRe

/-- Letter, digit, or allowed Unicode. -/
def alnumUniCls : RE := RE.cls (fun c => c.isAlphanum || uniAllowed c)

/-- Letter or allowed Unicode. -/
def alphaUniCls : RE := RE.cls (fun c => c.isAlpha || uniAllowed c)

/-- Interior label character: letter, digit, hyphen, dot, underscore,
tilde, or allowed Unicode. -/
def labelMidCls : RE := RE.cls (fun c =>
  c.isAlphanum || c == '-' || c == '.' || c == '_' || c == '~' || uniAllowed c)

/-- A domain label: a single letter/digit, or a letter/digit then interior
characters then a final letter/digit. -/
def labelRe : RE :=
  RE.alt alnumUniCls (RE.seq alnumUniCls (RE.seq (RE.star labelMidCls) alnumUniCls))

/-- The final (top-level) label: a single letter, or a letter then
interior characters then a final letter or digit. -/
def tldRe : RE :=
  RE.alt alphaUniCls (RE.seq alphaUniCls (RE.seq (RE.star labelMidCls) alnumUniCls))

/-- The domain: one or more dot-terminated labels, the final label, and an
optional trailing dot. -/
def domainRe : RE :=
  RE.seq (rePlus (RE.seq labelRe (RE.cls (fun c => c == '.'))))
    (RE.seq tldRe (reOpt (RE.cls (fun c => c == '.'))))

/-- The full anchored email pattern: local part, the at sign, domain. -/
def emailRe : RE := RE.seq localRe (RE.seq (RE.cls (fun c => c == '@')) domainRe)

/-- Models the go-playground validator's `email` check (library code behind
the `binding:"email"` tag): anchored match of the library's email pattern,
transcribed above. -/
def emailValid (s : String) : Bool := reMatch emailRe s.data

/-! ## `models/person.go` -/

/-- The `Person` GORM model: serial primary key `ID`, unique non-null
`ExternalID` (UUID as `Nat`), `Name`, `Email`, `DateOfBirth`, and the audit
timestamps. -/
structure Person where
  ID : Nat
  ExternalID : Nat
  Name : String
  Email : String
  DateOfBirth : GoTime
  CreatedAt : GoTime
  UpdatedAt : GoTime
deriving DecidableEq, Repr

/-- The bound save payload (`SavePersonRequest`), after JSON decoding and
validation. -/
structure SavePersonRequest where
  ExternalID : Nat
  Name : String
  Email : String
  DateOfBirth : GoTime
deriving DecidableEq, Repr

/-- The external representation (`PersonResponse`). -/
structure PersonResponse where
  ExternalID : Nat
  Name : String
  Email : String
  DateOfBirth : GoTime
deriving DecidableEq, Repr

/-- The `ErrorResponse` type: the `{"error": "<message>"}` body. -/
structure ErrorResponse where
  Error : String
deriving DecidableEq, Repr

/-- The `Person.BeforeCreate` GORM hook: substitutes a fresh UUID (supplied by
the environment, standing for `uuid.New()`) when `ExternalID` is the nil
UUID. -/
def Person.BeforeCreate (fresh : Nat) (p : Person) : Person :=
  if p.ExternalID = uuidNil then { p with ExternalID := fresh } else p

/-- The mapper `Person.ToResponse`: project the four public fields. -/
def Person.ToResponse (p : Person) : PersonResponse :=
  { ExternalID := p.ExternalID
    Name := p.Name
    Email := p.Email
    DateOfBirth := p.DateOfBirth }

/-- The constructor `FromSaveRequest`: build a `Person` from a bound request; `ID` and the
audit timestamps are left at their zero values for the database to fill. -/
def FromSaveRequest (req : SavePersonRequest) : Person :=
  { ID := 0
    ExternalID := req.ExternalID
    Name := req.Name
    Email := req.Email
    DateOfBirth := req.DateOfBirth
    CreatedAt := zeroGoTime
    UpdatedAt := zeroGoTime }

/-! ## Request binding (`c.ShouldBindJSON` with the `binding` tags) -/

/-- A raw JSON save payload: each of the four keys either absent or bound
to a JSON string. -/
structure RawSaveRequest where
  external_id : Option String
  name : Option String
  email : Option String
  date_of_birth : Option String
deriving DecidableEq, Repr

/-- JSON decoding of the `external_id` key: absent keys leave the zero
value; a present string must parse as a UUID. -/
def decodeExternalId (o : Option String) : Except String Nat :=
  match o with
  | none => Except.ok uuidNil
  | some s =>
    match uuidParse s with
    | some u => Except.ok u
    | none => Except.error "invalid UUID format"

/-- JSON decoding of the `date_of_birth` key: absent keys leave the zero
time; a present string must parse as RFC3339. -/
def decodeDob (o : Option String) : Except String GoTime :=
  match o with
  | none => Except.ok zeroGoTime
  | some s =>
    match timeParse s with
    | some t => Except.ok t
    | none => Except.error "parsing time: invalid RFC3339 timestamp"

/-- Models `c.ShouldBindJSON(&req)` for `SavePersonRequest`: JSON decoding
of each field (a decode failure aborts), then the go-playground validator
in struct-field order — `required` on every field (a field equal to its
zero value fails) and `email` on `Email`. -/
def shouldBindJSON (raw : RawSaveRequest) : Except String SavePersonRequest :=
  match decodeExternalId raw.external_id with
  | Except.error e => Except.error e
  | Except.ok eid =>
    match decodeDob raw.date_of_birth with
    | Except.error e => Except.error e
    | Except.ok dob =>
      if eid = uuidNil then Except.error "Field validation for ExternalID failed on the required tag"
      else if raw.name.getD "" = "" then Except.error "Field validation for Name failed on the required tag"
      else if raw.email.getD "" = "" then Except.error "Field validation for Email failed on the required tag"
      else if !emailValid (raw.email.getD "") then Except.error "Field validation for Email failed on the email tag"
      else if dob = zeroGoTime then Except.error "Field validation for DateOfBirth failed on the required tag"
      else Except.ok { ExternalID := eid, Name := raw.name.getD "", Email := raw.email.getD "",
                       DateOfBirth := dob }

/-! ## The database (`gorm.DB` over the `persons` table) -/

/-- The persistent state: stored rows plus the serial-primary-key
counter. -/
structure DBState where
  records : List Person
  nextId : Nat
deriving DecidableEq, Repr

/-- Database call outcomes: GORM's `ErrRecordNotFound`, an underlying I/O
failure, or Postgres rejecting the insert on the unique `external_id`
constraint. -/
inductive DBErr where
  | recordNotFound
  | ioError
  | uniqueViolation
deriving DecidableEq, Repr

/-- Fault injection for the two database calls of `SavePerson`: when a
flag is set, the corresponding call fails with an I/O error. -/
structure SaveFaults where
  lookupFault : Bool
  insertFault : Bool
deriving DecidableEq, Repr

/-- Environment values drawn at request time: the clock (for the audit
timestamps) and the value `uuid.New()` would return. -/
structure Env where
  now : GoTime
  freshUuid : Nat
deriving DecidableEq, Repr

/-- Models `h.db.Where("external_id = ?", x).First(&p)`: first stored row with
that external id, `ErrRecordNotFound` when none, or the injected I/O
failure. -/
def firstByExternalId (db : DBState) (fault : Bool) (x : Nat) : Except DBErr Person :=
  if fault then Except.error DBErr.ioError
  else
    match db.records.find? (fun p => p.ExternalID == x) with
    | some p => Except.ok p
    | none => Except.error DBErr.recordNotFound

/-- Models `h.db.First(&p, id)`: lookup by primary key. -/
def firstById (db : DBState) (fault : Bool) (i : Nat) : Except DBErr Person :=
  if fault then Except.error DBErr.ioError
  else
    match db.records.find? (fun p => p.ID == i) with
    | some p => Except.ok p
    | none => Except.error DBErr.recordNotFound

/-- Models `h.db.Create(&person)`: runs the `BeforeCreate` hook, then inserts,
assigning the serial `ID` and the audit timestamps; the insert fails on
the injected I/O fault or on the table's unique `external_id`
constraint. -/
def createPerson (db : DBState) (fault : Bool) (env : Env) (p : Person) :
    Except DBErr (Person × DBState) :=
  if fault then Except.error DBErr.ioError
  else if db.records.any
      (fun r => r.ExternalID == (p.BeforeCreate env.freshUuid).ExternalID) then
    Except.error DBErr.uniqueViolation
  else
    Except.ok
      ({ ID := db.nextId
         ExternalID := (p.BeforeCreate env.freshUuid).ExternalID
         Name := (p.BeforeCreate env.freshUuid).Name
         Email := (p.BeforeCreate env.freshUuid).Email
         DateOfBirth := (p.BeforeCreate env.freshUuid).DateOfBirth
         CreatedAt := env.now
         UpdatedAt := env.now },
       { records := db.records ++
           [{ ID := db.nextId
              ExternalID := (p.BeforeCreate env.freshUuid).ExternalID
              Name := (p.BeforeCreate env.freshUuid).Name
              Email := (p.BeforeCreate env.freshUuid).Email
              DateOfBirth := (p.BeforeCreate env.freshUuid).DateOfBirth
              CreatedAt := env.now
              UpdatedAt := env.now }]
         nextId := db.nextId + 1 })

/-! ## `handlers/person.go` -/

/-- A response body: an `ErrorResponse`, a `PersonResponse`, or the
`/health` status object. -/
inductive Body where
  | err (e : ErrorResponse)
  | person (r : PersonResponse)
  | health (status : String)
deriving DecidableEq, Repr

/-- The handler `SavePerson`: bind the JSON payload (400 on failure), pre-insert lookup
by external id (409 when it finds a row), create (500 on failure), else 201
with the mapped response.  Returns the reply and the resulting database
state. -/
def savePerson (db : DBState) (f : SaveFaults) (env : Env) (raw : RawSaveRequest) :
    (Nat × Body) × DBState :=
  match shouldBindJSON raw with
  | Except.error e => ((400, Body.err ⟨"Invalid request: " ++ e⟩), db)
  | Except.ok req =>
    match firstByExternalId db f.lookupFault req.ExternalID with
    | Except.ok _ => ((409, Body.err ⟨"Person with this external_id already exists"⟩), db)
    | Except.error _ =>
      match createPerson db f.insertFault env (FromSaveRequest req) with
      | Except.ok (p, db2) => ((201, Body.person p.ToResponse), db2)
      | Except.error _ => ((500, Body.err ⟨"Failed to save person"⟩), db)

/-- The handler `GetPerson`: parse the path parameter with `strconv.ParseUint(s,10,32)`
(400 on failure), look up by primary key, map `ErrRecordNotFound` to 404,
any other database error to 500, else 200 with the mapped response.  The
handler never writes. -/
def getPerson (db : DBState) (fault : Bool) (idStr : String) : Nat × Body :=
  match parseUint32 idStr with
  | none => (400, Body.err ⟨"Invalid ID format"⟩)
  | some i =>
    match firstById db fault i with
    | Except.error DBErr.recordNotFound => (404, Body.err ⟨"Person not found"⟩)
    | Except.error _ => (500, Body.err ⟨"Failed to retrieve person"⟩)
    | Except.ok p => (200, Body.person p.ToResponse)

/-- The `/health` route closure registered in `main.go` and in the test
router: `c.JSON(200, gin.H{"status": "ok"})`, consulting no state. -/
def healthHandler (_db : DBState) : Nat × Body :=
  (200, Body.health "ok")

/-! ## Sequential operation model -/

/-- One HTTP request in the sequential per-request model. -/
inductive Op where
  | save (f : SaveFaults) (env : Env) (raw : RawSaveRequest)
  | get (fault : Bool) (idStr : String)
deriving Repr

/-- State transition of one request: only `SavePerson` writes. -/
def stepOp (db : DBState) : Op → DBState
  | Op.save f env raw => (savePerson db f env raw).2
  | Op.get _ _ => db

/-- Run a sequence of requests. -/
def runOps (db : DBState) (ops : List Op) : DBState :=
  ops.foldl stepOp db

/-- The uniqueness invariant: pairwise distinct external identifiers. -/
def distinctExt (db : DBState) : Prop :=
  db.records.Pairwise (fun p q => p.ExternalID ≠ q.ExternalID)

instance (db : DBState) : Decidable (distinctExt db) := by
  unfold distinctExt; infer_instance

/-- Number of stored rows carrying a given external id. -/
def countExt (db : DBState) (x : Nat) : Nat :=
  (db.records.filter (fun p => p.ExternalID == x)).length

/-! ## Substring matching (for the asserted error-message fragments) -/

def subStart : List Char → List Char → Bool
  | [], _ => true
  | _ :: _, [] => false
  | a :: as, b :: bs => a == b && subStart as bs

def hasSub : List Char → List Char → Bool
  | needle, [] => subStart needle []
  | needle, b :: bs => subStart needle (b :: bs) || hasSub needle bs

/-- Whether `needle` occurs as a contiguous substring of `hay`. -/
def strHasSub (hay needle : String) : Bool :=
  hasSub needle.data hay.data

deriving instance DecidableEq for Except

/-! ## Concrete fixtures (mirroring the integration tests) -/

/-- A valid raw save payload, as in `TestSavePersonSuccess`. -/
def rawW : RawSaveRequest :=
  { external_id := some "00000000-0000-0000-0000-000000000001"
    name := some "Test User John"
    email := some "testjohn@example.com"
    date_of_birth := some "1990-01-01T12:00:00Z" }

/-- The bound form of `rawW`. -/
def reqW : SavePersonRequest :=
  { ExternalID := 1
    Name := "Test User John"
    Email := "testjohn@example.com"
    DateOfBirth := ⟨1990, 1, 1, 12, 0, 0, 0, none⟩ }

/-- A request-time environment. -/
def envW : Env := ⟨⟨2024, 1, 1, 0, 0, 0, 0, none⟩, 77⟩

/-- Fault-free database calls. -/
def noFaults : SaveFaults := ⟨false, false⟩

/-- The empty freshly-migrated database. -/
def dbEmpty : DBState := ⟨[], 1⟩

/-- The row `rawW` produces when saved into `dbEmpty` under `envW`. -/
def personW : Person :=
  { ID := 1
    ExternalID := 1
    Name := "Test User John"
    Email := "testjohn@example.com"
    DateOfBirth := ⟨1990, 1, 1, 12, 0, 0, 0, none⟩
    CreatedAt := envW.now
    UpdatedAt := envW.now }

/-- The database holding exactly `personW`. -/
def dbOne : DBState := ⟨[personW], 2⟩

/-- The payload `rawW` with the nil UUID as external id. -/
def rawNilUuid : RawSaveRequest :=
  { rawW with external_id := some "00000000-0000-0000-0000-000000000000" }

/-- A small concrete request sequence. -/
def opsW : List Op := [Op.save noFaults envW rawW, Op.get false "1"]

/-! ## Helper lemmas -/

/-- Inversion of a successful bind: each raw field was present, parsed, and
passed its validation. -/
lemma bindOk_facts {raw : RawSaveRequest} {req : SavePersonRequest}
    (h : shouldBindJSON raw = Except.ok req) :
    (∃ s, raw.external_id = some s ∧ uuidParse s = some req.ExternalID) ∧
    req.ExternalID ≠ uuidNil ∧
    (∃ s, raw.name = some s ∧ s ≠ "" ∧ req.Name = s) ∧
    (∃ s, raw.email = some s ∧ emailValid s = true ∧ req.Email = s) ∧
    (∃ s, raw.date_of_birth = some s ∧ timeParse s = some req.DateOfBirth ∧
      req.DateOfBirth ≠ zeroGoTime) := by
  unfold shouldBindJSON at h
  split at h
  · exact absurd h (by simp)
  · rename_i eid he
    split at h
    · exact absurd h (by simp)
    · rename_i dob hd
      split_ifs at h with h1 h2 h3 h4 h5
      simp only [Except.ok.injEq] at h
      subst h
      refine ⟨?_, by simpa using h1, ?_, ?_, ?_⟩
      · unfold decodeExternalId at he
        split at he
        · simp only [Except.ok.injEq] at he
          exact absurd he.symm h1
        · rename_i s hx
          split at he
          · rename_i u hu
            simp only [Except.ok.injEq] at he
            exact ⟨s, hx, by rw [hu]; exact congrArg some he⟩
          · exact Except.noConfusion he
      · cases hn : raw.name with
        | none => rw [hn] at h2; simp at h2
        | some s => exact ⟨s, rfl, by simpa [hn] using h2, by simp [hn]⟩
      · cases hm : raw.email with
        | none => rw [hm] at h3; simp at h3
        | some s =>
          refine ⟨s, rfl, ?_, by simp [hm]⟩
          rw [hm] at h4
          simpa using h4
      · unfold decodeDob at hd
        split at hd
        · simp only [Except.ok.injEq] at hd
          exact absurd hd.symm h5
        · rename_i s hx
          split at hd
          · rename_i t ht
            simp only [Except.ok.injEq] at hd
            exact ⟨s, hx, by rw [ht]; exact congrArg some hd, h5⟩
          · exact Except.noConfusion hd

/-- A successfully bound request never carries the nil UUID: the `required`
binding rejects the zero value. -/
lemma bindOk_ext_ne {raw : RawSaveRequest} {req : SavePersonRequest}
    (h : shouldBindJSON raw = Except.ok req) : req.ExternalID ≠ uuidNil :=
  (bindOk_facts h).2.1

/-- Branch equation: a bind failure yields the 400 reply and leaves the
state unchanged. -/
lemma savePerson_eq_bindError {raw : RawSaveRequest} {e : String}
    (h : shouldBindJSON raw = Except.error e) (db : DBState) (f : SaveFaults) (env : Env) :
    savePerson db f env raw = ((400, Body.err ⟨"Invalid request: " ++ e⟩), db) := by
  simp only [savePerson, h]

/-- Branch equation: a pre-insert lookup that finds a row yields the 409
reply and leaves the state unchanged. -/
lemma savePerson_eq_conflict {db : DBState} {f : SaveFaults} {env : Env}
    {raw : RawSaveRequest} {req : SavePersonRequest} {q : Person}
    (hb : shouldBindJSON raw = Except.ok req)
    (hf : firstByExternalId db f.lookupFault req.ExternalID = Except.ok q) :
    savePerson db f env raw =
      ((409, Body.err ⟨"Person with this external_id already exists"⟩), db) := by
  simp only [savePerson, hb, hf]

/-- Branch equation: a failing insert yields the 500 reply and leaves the
state unchanged. -/
lemma savePerson_eq_createError {db : DBState} {f : SaveFaults} {env : Env}
    {raw : RawSaveRequest} {req : SavePersonRequest} {e e2 : DBErr}
    (hb : shouldBindJSON raw = Except.ok req)
    (hf : firstByExternalId db f.lookupFault req.ExternalID = Except.error e)
    (hc : createPerson db f.insertFault env (FromSaveRequest req) = Except.error e2) :
    savePerson db f env raw = ((500, Body.err ⟨"Failed to save person"⟩), db) := by
  simp only [savePerson, hb, hf, hc]

/-- Branch equation: a successful insert yields the 201 reply with the
mapped row and the extended state. -/
lemma savePerson_eq_created {db : DBState} {f : SaveFaults} {env : Env}
    {raw : RawSaveRequest} {req : SavePersonRequest} {e : DBErr}
    {p : Person} {db2 : DBState}
    (hb : shouldBindJSON raw = Except.ok req)
    (hf : firstByExternalId db f.lookupFault req.ExternalID = Except.error e)
    (hc : createPerson db f.insertFault env (FromSaveRequest req) = Except.ok (p, db2)) :
    savePerson db f env raw = ((201, Body.person p.ToResponse), db2) := by
  simp only [savePerson, hb, hf, hc]

/-- Inversion of a successful insert: no fault, the unique constraint was
clear, and the state grew by exactly the stored row. -/
lemma createPerson_ok_inv {db : DBState} {fault : Bool} {env : Env}
    {p q : Person} {db2 : DBState}
    (h : createPerson db fault env p = Except.ok (q, db2)) :
    fault = false ∧
    (∀ r ∈ db.records, r.ExternalID ≠ (p.BeforeCreate env.freshUuid).ExternalID) ∧
    q = { ID := db.nextId
          ExternalID := (p.BeforeCreate env.freshUuid).ExternalID
          Name := (p.BeforeCreate env.freshUuid).Name
          Email := (p.BeforeCreate env.freshUuid).Email
          DateOfBirth := (p.BeforeCreate env.freshUuid).DateOfBirth
          CreatedAt := env.now
          UpdatedAt := env.now } ∧
    db2 = { records := db.records ++ [q], nextId := db.nextId + 1 } := by
  unfold createPerson at h
  split_ifs at h with h1 h2
  simp only [Except.ok.injEq, Prod.mk.injEq] at h
  obtain ⟨hq, hdb⟩ := h
  subst hq
  subst hdb
  refine ⟨by simpa using h1, ?_, rfl, rfl⟩
  intro r hr hcon
  exact h2 (List.any_eq_true.mpr ⟨r, hr, by simpa using hcon⟩)

/-- Rows not carrying `x` contribute nothing to the `countExt` filter. -/
lemma filter_ext_nil {l : List Person} {x : Nat}
    (h : ∀ q ∈ l, q.ExternalID ≠ x) :
    l.filter (fun p => p.ExternalID == x) = [] := by
  induction l with
  | nil => rfl
  | cons hd tl ih =>
    have hhd : (hd.ExternalID == x) = false := by
      simpa using h hd (List.mem_cons_self hd tl)
    simp only [List.filter, hhd]
    exact ih (fun q hq => h q (List.mem_cons_of_mem hd hq))

/-- Under the uniqueness invariant, a stored external id is stored exactly
once. -/
lemma filter_ext_one {l : List Person} {x : Nat}
    (hpw : l.Pairwise (fun p q => p.ExternalID ≠ q.ExternalID))
    {p0 : Person} (hmem : p0 ∈ l) (hx : p0.ExternalID = x) :
    (l.filter (fun p => p.ExternalID == x)).length = 1 := by
  induction l with
  | nil => cases hmem
  | cons hd tl ih =>
    obtain ⟨hhd, htl⟩ := List.pairwise_cons.mp hpw
    rcases List.mem_cons.mp hmem with rfl | hmem0
    · have hkeep : (p0.ExternalID == x) = true := by simp [hx]
      have htlnil : tl.filter (fun p => p.ExternalID == x) = [] := by
        refine filter_ext_nil (fun q hq hqx => ?_)
        exact hhd q hq (hx.trans hqx.symm)
      simp [List.filter, hkeep, htlnil]
    · have hdrop : (hd.ExternalID == x) = false := by
        have := hhd p0 hmem0
        simp only [beq_eq_false_iff_ne, ne_eq]
        intro hcon
        exact this (hcon.trans hx.symm)
      simp only [List.filter, hdrop]
      exact ih htl hmem0

/-- The handler `SavePerson` preserves the pairwise-distinct-external-id invariant: it
appends a row only after the unique-constraint check found no row carrying
the same external id. -/
lemma savePerson_preserves_distinct (db : DBState) (f : SaveFaults) (env : Env)
    (raw : RawSaveRequest) (h : distinctExt db) :
    distinctExt (savePerson db f env raw).2 := by
  cases hb : shouldBindJSON raw with
  | error e => rw [savePerson_eq_bindError hb]; exact h
  | ok req =>
    cases hf : firstByExternalId db f.lookupFault req.ExternalID with
    | ok p => rw [savePerson_eq_conflict hb hf]; exact h
    | error e =>
      cases hc : createPerson db f.insertFault env (FromSaveRequest req) with
      | error e2 => rw [savePerson_eq_createError hb hf hc]; exact h
      | ok pr =>
        obtain ⟨p, db2⟩ := pr
        rw [savePerson_eq_created hb hf hc]
        obtain ⟨-, hclear, hq, hdb2⟩ := createPerson_ok_inv hc
        subst hdb2
        unfold distinctExt at h ⊢
        simp only
        rw [List.pairwise_append]
        refine ⟨h, by simp, ?_⟩
        intro a ha b hb2
        simp only [List.mem_singleton] at hb2
        subst hb2
        intro hcon
        exact hclear a ha (by rw [hcon, hq])

/-! ## Claims -/

/-- C1: for every store state containing a record with external_id X and
every valid save request with external_id X, `SavePerson` (absent a lookup
fault) responds 409 Conflict with an error message containing "already
exists", the store is unchanged, and exactly one record with external_id X
remains. -/
theorem C1_savePerson_conflict (db : DBState) (f : SaveFaults) (env : Env)
    (raw : RawSaveRequest) (req : SavePersonRequest) (p0 : Person)
    (hbind : shouldBindJSON raw = Except.ok req)
    (hfault : f.lookupFault = false)
    (hinv : distinctExt db)
    (hmem : p0 ∈ db.records) (hx : p0.ExternalID = req.ExternalID) :
    savePerson db f env raw =
      ((409, Body.err ⟨"Person with this external_id already exists"⟩), db) ∧
    strHasSub "Person with this external_id already exists" "already exists" = true ∧
    countExt (savePerson db f env raw).2 req.ExternalID = 1 := by
  have hsome : (db.records.find? (fun p => p.ExternalID == req.ExternalID)).isSome :=
    List.find?_isSome.mpr ⟨p0, hmem, by simp [hx]⟩
  obtain ⟨q, hq⟩ := Option.isSome_iff_exists.mp hsome
  have hfb : firstByExternalId db f.lookupFault req.ExternalID = Except.ok q := by
    simp [firstByExternalId, hfault, hq]
  have heq := @savePerson_eq_conflict db f env raw req q hbind hfb
  refine ⟨heq, by decide, ?_⟩
  rw [heq]
  unfold countExt
  exact filter_ext_one hinv hmem hx

/-- C2 counterexample: with a storage failure injected into the pre-insert
lookup (and a working insert), a valid save request on the empty store is
answered 201, not 500 — a storage failure in a database step of the create
flow can still yield success. -/
theorem C2_counterexample :
    (savePerson dbEmpty ⟨true, false⟩ envW rawW).1.1 = 201 := by decide

/-- C2 (amended): a storage failure in the insert step makes `SavePerson`
respond 500 with "Failed to save person" and leaves the store unchanged —
regardless of whether the pre-insert lookup also failed — so an insert-step
storage failure never yields 201 or 409.  (A storage failure in the lookup
step alone is treated as record-absent and the flow proceeds to the
insert.) -/
theorem C2_insert_failure_500 (db : DBState) (env : Env) (raw : RawSaveRequest)
    (req : SavePersonRequest) (lf : Bool)
    (hbind : shouldBindJSON raw = Except.ok req)
    (habs : ∀ p ∈ db.records, p.ExternalID ≠ req.ExternalID) :
    savePerson db ⟨lf, true⟩ env raw =
      ((500, Body.err ⟨"Failed to save person"⟩), db) := by
  have hc : createPerson db true env (FromSaveRequest req) = Except.error DBErr.ioError := by
    simp [createPerson]
  cases lf with
  | true =>
    have hfb : firstByExternalId db true req.ExternalID = Except.error DBErr.ioError := by
      simp [firstByExternalId]
    exact savePerson_eq_createError hbind hfb hc
  | false =>
    have hfind : db.records.find? (fun p => p.ExternalID == req.ExternalID) = none :=
      List.find?_eq_none.mpr (fun p hp => by simp [habs p hp])
    have hfb : firstByExternalId db false req.ExternalID = Except.error DBErr.recordNotFound := by
      simp [firstByExternalId, hfind]
    exact savePerson_eq_createError hbind hfb hc

/-- C3 counterexample: the path parameter "0" does not denote a positive
integer, yet `GetPerson` does not answer 400: `strconv.ParseUint` accepts
it and the handler proceeds to the store lookup (404 on the empty
store). -/
theorem C3_counterexample :
    parseUint32 "0" = some 0 ∧
    getPerson dbEmpty false "0" = (404, Body.err ⟨"Person not found"⟩) := by decide

/-- C3 (amended): `GetPerson` responds 400 "Invalid ID format" if and only
if the path parameter fails to parse as a base-10 unsigned integer fitting
in 32 bits (zero included among the accepted values); when it parses, the
handler proceeds to the store lookup, and every reply has status 400, 200,
404 or 500. -/
theorem C3_invalid_id_format (db : DBState) (fault : Bool) (s : String) :
    ((getPerson db fault s = (400, Body.err ⟨"Invalid ID format"⟩)) ↔
      parseUint32 s = none) ∧
    ((getPerson db fault s).1 = 400 ∨ (getPerson db fault s).1 = 200 ∨
     (getPerson db fault s).1 = 404 ∨ (getPerson db fault s).1 = 500) := by
  cases hp : parseUint32 s with
  | none =>
    have h400 : getPerson db fault s = (400, Body.err ⟨"Invalid ID format"⟩) := by
      simp [getPerson, hp]
    exact ⟨⟨fun _ => rfl, fun _ => h400⟩, Or.inl (by rw [h400])⟩
  | some i =>
    cases hfb : firstById db fault i with
    | ok p =>
      have h200 : getPerson db fault s = (200, Body.person p.ToResponse) := by
        simp [getPerson, hp, hfb]
      refine ⟨⟨fun heq => ?_, fun hnone => absurd hnone (by simp)⟩, Or.inr (Or.inl (by rw [h200]))⟩
      rw [h200] at heq
      simp at heq
    | error e =>
      cases e with
      | recordNotFound =>
        have h404 : getPerson db fault s = (404, Body.err ⟨"Person not found"⟩) := by
          simp [getPerson, hp, hfb]
        refine ⟨⟨fun heq => ?_, fun hnone => absurd hnone (by simp)⟩,
          Or.inr (Or.inr (Or.inl (by rw [h404])))⟩
        rw [h404] at heq
        simp at heq
      | ioError =>
        have h500 : getPerson db fault s = (500, Body.err ⟨"Failed to retrieve person"⟩) := by
          simp [getPerson, hp, hfb]
        refine ⟨⟨fun heq => ?_, fun hnone => absurd hnone (by simp)⟩,
          Or.inr (Or.inr (Or.inr (by rw [h500])))⟩
        rw [h500] at heq
        simp at heq
      | uniqueViolation =>
        have h500 : getPerson db fault s = (500, Body.err ⟨"Failed to retrieve person"⟩) := by
          simp [getPerson, hp, hfb]
        refine ⟨⟨fun heq => ?_, fun hnone => absurd hnone (by simp)⟩,
          Or.inr (Or.inr (Or.inr (by rw [h500])))⟩
        rw [h500] at heq
        simp at heq

/-- C4: saving a valid request whose external_id is absent from the store
succeeds with 201, and the response body's external_id, name, email and
date_of_birth are exactly those of the request; in particular
`ToResponse ∘ FromSaveRequest` is the identity on the four public
fields. -/
theorem C4_roundtrip (db : DBState) (env : Env) (raw : RawSaveRequest)
    (req : SavePersonRequest)
    (hbind : shouldBindJSON raw = Except.ok req)
    (habs : ∀ p ∈ db.records, p.ExternalID ≠ req.ExternalID) :
    (FromSaveRequest req).ToResponse =
      ⟨req.ExternalID, req.Name, req.Email, req.DateOfBirth⟩ ∧
    (savePerson db noFaults env raw).1 =
      (201, Body.person ⟨req.ExternalID, req.Name, req.Email, req.DateOfBirth⟩) := by
  refine ⟨rfl, ?_⟩
  have hne := bindOk_ext_ne hbind
  have hfind : db.records.find? (fun p => p.ExternalID == req.ExternalID) = none :=
    List.find?_eq_none.mpr (fun p hp => by simp [habs p hp])
  have hfb : firstByExternalId db noFaults.lookupFault req.ExternalID =
      Except.error DBErr.recordNotFound := by
    simp [firstByExternalId, noFaults, hfind]
  have hbc : (FromSaveRequest req).BeforeCreate env.freshUuid = FromSaveRequest req := by
    simp [Person.BeforeCreate, FromSaveRequest, hne]
  cases hc : createPerson db noFaults.insertFault env (FromSaveRequest req) with
  | error e =>
    exfalso
    unfold createPerson at hc
    rw [hbc] at hc
    have hany : db.records.any (fun r => r.ExternalID == (FromSaveRequest req).ExternalID)
        = false := by
      apply List.any_eq_false.mpr
      intro r hr
      simp [FromSaveRequest]
      exact habs r hr
    rw [hany] at hc
    simp [noFaults] at hc
  | ok pr =>
    obtain ⟨p, db2⟩ := pr
    rw [savePerson_eq_created hbind hfb hc]
    obtain ⟨-, -, hq, -⟩ := createPerson_ok_inv hc
    rw [hq, hbc]
    rfl

/-- C6: once the path parameter parses, `GetPerson` (with a fault-free
store) answers 404 "Person not found" exactly when no record has that
internal id, and answers 200 with the mapped record when one does. -/
theorem C6_get_not_found (db : DBState) (s : String) (i : Nat)
    (hp : parseUint32 s = some i) :
    ((getPerson db false s = (404, Body.err ⟨"Person not found"⟩)) ↔
      (∀ p ∈ db.records, p.ID ≠ i)) ∧
    (∀ p, db.records.find? (fun q => q.ID == i) = some p →
      getPerson db false s = (200, Body.person p.ToResponse)) := by
  cases hf : db.records.find? (fun q => q.ID == i) with
  | none =>
    have h404 : getPerson db false s = (404, Body.err ⟨"Person not found"⟩) := by
      simp [getPerson, hp, firstById, hf]
    refine ⟨⟨fun _ => ?_, fun _ => h404⟩, fun p hp2 => ?_⟩
    · intro p hpmem hpid
      have := List.find?_eq_none.mp hf p hpmem
      simp [hpid] at this
    · exact Option.noConfusion hp2
  | some p0 =>
    have h200 : getPerson db false s = (200, Body.person p0.ToResponse) := by
      simp [getPerson, hp, firstById, hf]
    have hpmem : p0 ∈ db.records := List.mem_of_find?_eq_some hf
    have hpid : p0.ID = i := by simpa using List.find?_some hf
    refine ⟨⟨fun heq => ?_, fun hall => absurd hpid (hall p0 hpmem)⟩, fun p hp2 => ?_⟩
    · rw [h200] at heq
      simp at heq
    · injection hp2 with hpp
      rw [← hpp]
      exact h200

/-- One request preserves the uniqueness invariant. -/
lemma stepOp_preserves (db : DBState) (op : Op) (h : distinctExt db) :
    distinctExt (stepOp db op) := by
  cases op with
  | save f env raw => exact savePerson_preserves_distinct db f env raw h
  | get fault s => exact h

/-- C7: in the sequential per-request model, every sequence of save and get
requests starting from a store with pairwise distinct external identifiers
preserves that property. -/
theorem C7_uniqueness_invariant (db : DBState) (ops : List Op)
    (h : distinctExt db) : distinctExt (runOps db ops) := by
  induction ops generalizing db with
  | nil => exact h
  | cons op rest ih => exact ih (stepOp db op) (stepOp_preserves db op h)

/-- C8: `ToResponse` is a pure total function projecting exactly the four
public fields; its output is independent of the internal identifier and of
the audit timestamps. -/
theorem C8_toResponse_pure (p : Person) (i : Nat) (c u : GoTime) :
    p.ToResponse = ⟨p.ExternalID, p.Name, p.Email, p.DateOfBirth⟩ ∧
    Person.ToResponse { p with ID := i, CreatedAt := c, UpdatedAt := u } = p.ToResponse :=
  ⟨rfl, rfl⟩

/-- C9: a save request whose external_id is the nil UUID is rejected with
400 (the `required` binding treats the zero value as absent) and leaves the
store unchanged; consequently no successfully bound request carries the nil
UUID, so the `BeforeCreate` fresh-UUID branch is unreachable through the
HTTP interface and every row `SavePerson` stores carries the
client-supplied external id. -/
theorem C9_nil_uuid_rejected (db : DBState) (f : SaveFaults) (env : Env)
    (raw : RawSaveRequest) (s : String)
    (hs : raw.external_id = some s) (hnil : uuidParse s = some uuidNil) :
    (savePerson db f env raw).1.1 = 400 ∧ (savePerson db f env raw).2 = db ∧
    (∀ raw2 req, shouldBindJSON raw2 = Except.ok req → req.ExternalID ≠ uuidNil) ∧
    (∀ raw2 req p, shouldBindJSON raw2 = Except.ok req →
      (savePerson db f env raw2).2.records = db.records ++ [p] →
      p.ExternalID = req.ExternalID) := by
  have hbinderr : ∀ req, shouldBindJSON raw ≠ Except.ok req := by
    intro req hb
    obtain ⟨⟨s1, he1, hu1⟩, hne, -, -, -⟩ := bindOk_facts hb
    rw [hs] at he1
    injection he1 with hss
    rw [← hss] at hu1
    rw [hnil] at hu1
    injection hu1 with hval
    exact hne hval.symm
  have h400 : (savePerson db f env raw).1.1 = 400 ∧ (savePerson db f env raw).2 = db := by
    cases hb : shouldBindJSON raw with
    | error e => rw [savePerson_eq_bindError hb]; exact ⟨rfl, rfl⟩
    | ok req => exact absurd hb (hbinderr req)
  refine ⟨h400.1, h400.2, fun raw2 req hb => bindOk_ext_ne hb, ?_⟩
  intro raw2 req p hb hrec
  cases hf : firstByExternalId db f.lookupFault req.ExternalID with
  | ok q =>
    rw [@savePerson_eq_conflict db f env raw2 req q hb hf] at hrec
    have := congrArg List.length hrec
    simp at this
  | error e =>
    cases hc : createPerson db f.insertFault env (FromSaveRequest req) with
    | error e2 =>
      rw [savePerson_eq_createError hb hf hc] at hrec
      have := congrArg List.length hrec
      simp at this
    | ok pr =>
      obtain ⟨q, db2⟩ := pr
      rw [savePerson_eq_created hb hf hc] at hrec
      obtain ⟨-, -, hq, hdb2⟩ := createPerson_ok_inv hc
      rw [hdb2] at hrec
      simp only at hrec
      have hqp : q = p := by
        have h1 := List.append_cancel_left hrec
        simpa using h1
      rw [← hqp, hq]
      simp [Person.BeforeCreate, FromSaveRequest, bindOk_ext_ne hb]

/-- C10: `GET /health` always answers 200 with status "ok", consulting no
store state. -/
theorem C10_health_ok (db : DBState) : healthHandler db = (200, Body.health "ok") := rfl

/-- Witness for C1 at the concrete duplicate-save of the tests. -/
theorem C1_savePerson_conflict_witness :
    (shouldBindJSON rawW = Except.ok reqW ∧ noFaults.lookupFault = false ∧
     distinctExt dbOne ∧ personW ∈ dbOne.records ∧
     personW.ExternalID = reqW.ExternalID) ∧
    (savePerson dbOne noFaults envW rawW =
       ((409, Body.err ⟨"Person with this external_id already exists"⟩), dbOne) ∧
     strHasSub "Person with this external_id already exists" "already exists" = true ∧
     countExt (savePerson dbOne noFaults envW rawW).2 reqW.ExternalID = 1) :=
  ⟨⟨by decide, rfl, by decide, by decide, rfl⟩,
   C1_savePerson_conflict dbOne noFaults envW rawW reqW personW (by decide) rfl
     (by decide) (by decide) rfl⟩

/-- Witness for the amended C2 at a concrete failing insert. -/
theorem C2_insert_failure_500_witness :
    (shouldBindJSON rawW = Except.ok reqW ∧
     (∀ p ∈ dbEmpty.records, p.ExternalID ≠ reqW.ExternalID)) ∧
    savePerson dbEmpty ⟨false, true⟩ envW rawW =
      ((500, Body.err ⟨"Failed to save person"⟩), dbEmpty) :=
  ⟨⟨by decide, fun p hp => absurd hp (by simp [dbEmpty])⟩,
   C2_insert_failure_500 dbEmpty envW rawW reqW false (by decide)
     (fun p hp => absurd hp (by simp [dbEmpty]))⟩

/-- Witness for C4 at the concrete fresh save of the tests. -/
theorem C4_roundtrip_witness :
    (shouldBindJSON rawW = Except.ok reqW ∧
     (∀ p ∈ dbEmpty.records, p.ExternalID ≠ reqW.ExternalID)) ∧
    ((FromSaveRequest reqW).ToResponse =
       ⟨reqW.ExternalID, reqW.Name, reqW.Email, reqW.DateOfBirth⟩ ∧
     (savePerson dbEmpty noFaults envW rawW).1 =
       (201, Body.person ⟨reqW.ExternalID, reqW.Name, reqW.Email, reqW.DateOfBirth⟩)) :=
  ⟨⟨by decide, fun p hp => absurd hp (by simp [dbEmpty])⟩,
   C4_roundtrip dbEmpty envW rawW reqW (by decide)
     (fun p hp => absurd hp (by simp [dbEmpty]))⟩

/-- Witness for C6 at the one-row store and the path parameter "1". -/
theorem C6_get_not_found_witness :
    parseUint32 "1" = some 1 ∧
    (((getPerson dbOne false "1" = (404, Body.err ⟨"Person not found"⟩)) ↔
       (∀ p ∈ dbOne.records, p.ID ≠ 1)) ∧
     (∀ p, dbOne.records.find? (fun q => q.ID == 1) = some p →
       getPerson dbOne false "1" = (200, Body.person p.ToResponse))) :=
  ⟨by decide, C6_get_not_found dbOne "1" 1 (by decide)⟩

/-- Witness for C7 at a concrete request sequence. -/
theorem C7_uniqueness_invariant_witness :
    distinctExt dbOne ∧ distinctExt (runOps dbOne opsW) :=
  ⟨by decide, C7_uniqueness_invariant dbOne opsW (by decide)⟩

/-- Witness for C9 at the concrete nil-UUID payload. -/
theorem C9_nil_uuid_rejected_witness :
    (rawNilUuid.external_id = some "00000000-0000-0000-0000-000000000000" ∧
     uuidParse "00000000-0000-0000-0000-000000000000" = some uuidNil) ∧
    ((savePerson dbEmpty noFaults envW rawNilUuid).1.1 = 400 ∧
     (savePerson dbEmpty noFaults envW rawNilUuid).2 = dbEmpty ∧
     (∀ raw2 req, shouldBindJSON raw2 = Except.ok req → req.ExternalID ≠ uuidNil) ∧
     (∀ raw2 req p, shouldBindJSON raw2 = Except.ok req →
       (savePerson dbEmpty noFaults envW raw2).2.records = dbEmpty.records ++ [p] →
       p.ExternalID = req.ExternalID)) :=
  ⟨⟨rfl, by decide⟩,
   C9_nil_uuid_rejected dbEmpty noFaults envW rawNilUuid
     "00000000-0000-0000-0000-000000000000" rfl (by decide)⟩

end PersonService
